import Mathlib

/-!
Verification of the `quickbooks-sync` repository: a shallow embedding of the
Shopify-side variant validator / parser (`shopify_engine.js`) and the
QuickBooks-side reconciliation engine (`quickbooks_engine.js`), together with
theorems settling the specification claims.

Modelling conventions:
* JavaScript optional / nullable string fields are `Option String`; both
  `null` and `undefined` collapse to `none`.  `jsStr` renders a missing value
  the way a template literal would.
* JavaScript numbers are modelled as exact rationals (`ℚ`); `parseFloat` is a
  decimal-fragment parser (non-numeric input, a JS `NaN`, falls outside the
  rational abstraction and is rendered as `0`).
* JavaScript objects used as string-keyed dictionaries are association lists
  with first-match lookup; an assignment prepends (which shadows, i.e.
  overwrites for lookup purposes).
* The external QuickBooks store is modelled as lists of categories, items and
  accounts with deterministic first-match lookups.  Queries return active
  records only, matching the QuickBooks Online query default.
-/

namespace QBSync

/-- JS template-literal rendering of a possibly missing string field. -/
def jsStr : Option String → String
  | some s => s
  | none => "undefined"

/-- JS falsiness of a string field: missing or empty (`!x || x == ""`). -/
def blank : Option String → Bool
  | some s => s == ""
  | none => true

/-! ### Raw product variants (Shopify side) -/

structure UnitCost where
  amount : Option String
deriving DecidableEq

structure InventoryItem where
  unit_cost : Option UnitCost
deriving DecidableEq

structure SelectedOption where
  value : Option String
deriving DecidableEq

structure Variant where
  id : String
  product_id : Option String
  title : Option String
  vendor : Option String
  product_type : Option String
  sku : Option String
  barcode : Option String
  price : Option String
  selected_options : List SelectedOption
  inventory_item : Option InventoryItem
  taxable : Bool
deriving DecidableEq

/-! ### Name / description generator (`generateProductName`,
`generateProductDescription` in `shopify_engine.js`) -/

/-- `generateProductName`: start from `` `${vendor} ${title}` `` and append
every selected-option value that is truthy and not `"Default Title"`. -/
def generateProductName (vendor title : String) (selected_options : List SelectedOption) : String :=
  selected_options.foldl
    (fun n o =>
      match o.value with
      | some v => if v != "" && v != "Default Title" then n ++ " " ++ v else n
      | none => n)
    (vendor ++ " " ++ title)

/-- `generateProductDescription`: the fixed template `` `${name}, barcode: ${barcode}` ``. -/
def generateProductDescription (name : String) (barcode : Option String) : String :=
  name ++ ", barcode: " ++ jsStr barcode

/-! ### Variant validator (`validateProductVariants` in `shopify_engine.js`) -/

structure VError where
  code : Nat
  message : String
deriving DecidableEq

structure VResult where
  id : String
  product_id : Option String
  title : Option String
  errors : List VError
deriving DecidableEq

structure VReport where
  ok : Bool
  results : List VResult
deriving DecidableEq

/-- The three mutable uniqueness-tracking dictionaries of the validator. -/
structure VState where
  names : List (String × String)
  skus : List (String × String)
  barcodes : List (String × String)
deriving DecidableEq

/-- First-match association-list lookup (JS `obj[key]`). -/
def lookupA (m : List (String × String)) (k : String) : Option String :=
  (m.find? (fun kv => kv.1 == k)).map (·.2)

/-- The recurring `if (existing[key]) { error } else { existing[key] = id }`
pattern: a truthy stored value flags a duplicate (with the first-seen id in
the message), otherwise the current id is registered. -/
def dupCheck (m : List (String × String)) (key id : String) (mk : String → VError) :
    List VError × List (String × String) :=
  match lookupA m key with
  | some v => if v != "" then ([mk v], m) else ([], (key, id) :: m)
  | none => ([], (key, id) :: m)

def dupNameError (name first_id : String) : VError :=
  ⟨106, "duplicate name: " ++ name ++ "; the name is already in use by product variant with id: " ++ first_id⟩

def dupSkuError (sku first_id : String) : VError :=
  ⟨108, "duplicate sku: " ++ sku ++ "; the sku is already in use by product variant with id: " ++ first_id⟩

def dupBarcodeError (barcode first_id : String) : VError :=
  ⟨110, "duplicate barcode: " ++ barcode ++ "; the barcode is already in use by product variant with id: " ++ first_id⟩

/-- Code 100: `!price || price == ""`. -/
def priceErrors (v : Variant) : List VError :=
  if blank v.price then [⟨100, "invalid price: price can't be empty"⟩] else []

/-- Code 101: `!inventory_item || !inventory_item.unit_cost ||
!inventory_item.unit_cost.amount || inventory_item.unit_cost.amount == ""`. -/
def costErrors (v : Variant) : List VError :=
  match v.inventory_item with
  | none => [⟨101, "invalid cost: cost can't be empty"⟩]
  | some ii =>
    match ii.unit_cost with
    | none => [⟨101, "invalid cost: cost can't be empty"⟩]
    | some uc =>
      if blank uc.amount then [⟨101, "invalid cost: cost can't be empty"⟩] else []

/-- JS `name.startsWith("_")` for the one-character prefix the validator
checks: the first character is an underscore. -/
def startsWithUnderscore (s : String) : Bool :=
  match s.data with
  | c :: _ => c == '_'
  | [] => false

/-- The vendor/title presence, name-shape and name-uniqueness block
(codes 102–106); returns the errors and the updated `existing_names`. -/
def nameBlock (names : List (String × String)) (v : Variant) :
    List VError × List (String × String) :=
  if blank v.vendor || blank v.title then
    ((if blank v.vendor then [⟨102, "invalid vendor: vendor can't be empty"⟩] else []) ++
     (if blank v.title then [⟨103, "invalid title: title can't be empty"⟩] else []), names)
  else
    let name := generateProductName (jsStr v.vendor) (jsStr v.title) v.selected_options
    if startsWithUnderscore name || name.length > 100 then
      ((if startsWithUnderscore name then [⟨104, "invalid name: name can't start with \"_\""⟩] else []) ++
       (if name.length > 100 then [⟨105, "invalid name: name can't have more than 100 characters"⟩] else []), names)
    else
      dupCheck names name v.id (fun first => dupNameError name first)

/-- The sku presence / uniqueness block (codes 107–108). -/
def skuBlock (skus : List (String × String)) (v : Variant) :
    List VError × List (String × String) :=
  if blank v.sku then ([⟨107, "invalid sku: sku can't be empty"⟩], skus)
  else dupCheck skus (jsStr v.sku) v.id (fun first => dupSkuError (jsStr v.sku) first)

/-- The barcode presence / uniqueness block (codes 109–110). -/
def barcodeBlock (barcodes : List (String × String)) (v : Variant) :
    List VError × List (String × String) :=
  if blank v.barcode then ([⟨109, "invalid barcode: barcode can't be empty"⟩], barcodes)
  else dupCheck barcodes (jsStr v.barcode) v.id (fun first => dupBarcodeError (jsStr v.barcode) first)

/-- One iteration of the validator's `forEach` body. -/
def validateVariant (st : VState) (v : Variant) : VState × List VError :=
  let e0 := priceErrors v ++ costErrors v
  let (e1, names') := nameBlock st.names v
  let (e2, skus') := skuBlock st.skus v
  let (e3, barcodes') := barcodeBlock st.barcodes v
  (⟨names', skus', barcodes'⟩, e0 ++ e1 ++ e2 ++ e3)

/-- The validator's pass over the batch, threading the three dictionaries. -/
def runValidate (st : VState) (vs : List Variant) : VState × List VResult :=
  match vs with
  | [] => (st, [])
  | v :: rest =>
    let (st', errs) := validateVariant st v
    let (stF, rs) := runValidate st' rest
    (stF, ⟨v.id, v.product_id, v.title, errs⟩ :: rs)

/-- `validateProductVariants`: validate a batch starting from empty
dictionaries; `ok` iff every result has no errors. -/
def validateProductVariants (vs : List Variant) : VReport :=
  let (_, rs) := runValidate ⟨[], [], []⟩ vs
  ⟨rs.all (fun r => r.errors.isEmpty), rs⟩

/-! ### Variant parser (`parseProduct` in `shopify_engine.js`) -/

def natOfDigits (ds : List Char) : Nat :=
  ds.foldl (fun n c => 10 * n + (c.toNat - 48)) 0

/-- JS `parseFloat`, restricted to the rational abstraction: an optional
sign followed by a decimal-digit fragment (with at most one point); inputs
with no numeric prefix (JS `NaN`) are rendered as `0`. -/
def parseFloat (s : String) : ℚ :=
  let cs := s.data.dropWhile (fun c => c == ' ')
  let signed : Bool × List Char :=
    match cs with
    | '-' :: rest => (true, rest)
    | '+' :: rest => (false, rest)
    | _ => (false, cs)
  let ip := signed.2.takeWhile Char.isDigit
  let rest := signed.2.dropWhile Char.isDigit
  let fp :=
    match rest with
    | '.' :: r => r.takeWhile Char.isDigit
    | _ => []
  let den : Nat := 10 ^ fp.length
  let mag : ℚ := mkRat (Int.ofNat (natOfDigits ip * den + natOfDigits fp)) den
  if signed.1 then -mag else mag

structure NormalizedProduct where
  name : String
  category : Option String
  sku : Option String
  description : String
  unit_price : Option ℚ
  purchase_cost : Option ℚ
  taxable : Bool
deriving DecidableEq

/-- `parseProduct`.  The source dereferences `variant.inventory_item.unit_cost`
unconditionally, so a missing `inventory_item` is a TypeError, modelled as
`none`.  `unit_price` is `null` when `price` is falsy; `purchase_cost` is
`null` exactly when the `unit_cost` object is falsy (its `amount` is then fed
to `parseFloat` whatever it is). -/
def parseProduct (v : Variant) : Option NormalizedProduct :=
  match v.inventory_item with
  | none => none
  | some ii =>
    let name := generateProductName (jsStr v.vendor) (jsStr v.title) v.selected_options
    let description := generateProductDescription name v.barcode
    let unit_price : Option ℚ :=
      match v.price with
      | some s => if s == "" then none else some (parseFloat s)
      | none => none
    let purchase_cost : Option ℚ :=
      match ii.unit_cost with
      | some uc => some (parseFloat (jsStr uc.amount))
      | none => none
    some ⟨name, v.product_type, v.sku, description, unit_price, purchase_cost, v.taxable⟩

/-! ### Pagination driver (`getAllProductVariants` in `shopify_engine.js`) -/

structure Page (α : Type) where
  items : List α
  next_cursor : Option String

/-- The cursor-following collection loop, instrumented: besides the
accumulated items it returns the list of cursor arguments passed to the fetch
capability (one entry per invocation).  The loop continues only while the
returned cursor is truthy — `if (!current_cursor)` stops on a null *or
empty-string* cursor.  The source's `while` loop carries no bound; `fuel`
only serves to make the recursion structural and every theorem quantifies
over sufficient fuel. -/
def getAllPages {α : Type} (fetch : Option String → Except Unit (Page α)) :
    Nat → Option String → Except Unit (List α × List (Option String))
  | 0, _ => .error ()
  | fuel + 1, cursor =>
    match fetch cursor with
    | .error e => .error e
    | .ok pg =>
      match pg.next_cursor with
      | none => .ok (pg.items, [cursor])
      | some c =>
        if c == "" then .ok (pg.items, [cursor])
        else
          match getAllPages fetch fuel (some c) with
          | .error e => .error e
          | .ok (items, calls) => .ok (pg.items ++ items, cursor :: calls)

/-- `getAllProductVariants` proper: just the collected items. -/
def getAllProductVariants {α : Type} (fetch : Option String → Except Unit (Page α))
    (fuel : Nat) : Except Unit (List α) :=
  (getAllPages fetch fuel none).map (·.1)

/-! ### The QuickBooks reconciliation engine (`quickbooks_engine.js`)

The external accounting store is a deterministic in-memory model of the
capabilities the engine consumes: lists of categories, inventory items and
accounts with first-match lookups.  Item queries (`findItems` by name or by
SKU) return active records only, matching the QuickBooks Online query
default; `updateItem` replaces the record with the payload's `Id`;
`createItem` appends, assigning a fresh id. -/

structure Ref where
  value : String
  name : String
deriving DecidableEq

structure Category where
  value : String
  name : String
deriving DecidableEq

structure Account where
  Id : String
  Name : String
deriving DecidableEq

structure Item where
  Id : String
  Name : String
  Sku : Option String
  Description : Option String
  PurchaseDesc : Option String
  UnitPrice : Option ℚ
  PurchaseCost : Option ℚ
  Taxable : Bool
  Active : Bool
  SubItem : Bool
  ParentRef : Option Ref
  TrackQtyOnHand : Bool
  QtyOnHand : ℚ
  InvStartDate : Option String
  IncomeAccountRef : Option Ref
  ExpenseAccountRef : Option Ref
  AssetAccountRef : Option Ref
deriving DecidableEq

structure Store where
  categories : List Category
  items : List Item
  accounts : List Account
  next_id : Nat
deriving DecidableEq

def findCategoryByName (s : Store) (n : String) : Option Category :=
  s.categories.find? (fun c => c.name == n)

def findProductByName (s : Store) (n : String) : Option Item :=
  s.items.find? (fun i => i.Active && i.Name == n)

def findProductBySKU (s : Store) (k : Option String) : Option Item :=
  s.items.find? (fun i => i.Active && i.Sku == k)

def findAccountByName (s : Store) (n : String) : Option Account :=
  s.accounts.find? (fun a => a.Name == n)

/-- `createCategory`: the store materialises the category and returns it. -/
def createCategoryOp (s : Store) (n : String) : Store × Category :=
  let c : Category := ⟨toString s.next_id, n⟩
  ({ s with categories := s.categories ++ [c], next_id := s.next_id + 1 }, c)

/-- `updateProduct` at the store: replace the record carrying the payload's id. -/
def applyUpdate (s : Store) (payload : Item) : Store :=
  { s with items := s.items.map (fun i => if i.Id == payload.Id then payload else i) }

/-- `createProduct` at the store: append, with a store-assigned fresh id. -/
def applyCreate (s : Store) (payload : Item) : Store :=
  { s with
    items := s.items ++ [{ payload with Id := toString s.next_id }],
    next_id := s.next_id + 1 }

/-- Capability-invocation events, in the order the engine performs them. -/
inductive Event where
  | findCategory (name : String) (res : Option Category)
  | createCategory (name : String)
  | findByName (name : String) (res : Option Item)
  | findBySKU (sku : Option String) (res : Option Item)
  | updateProduct (payload : Item)
  | findAccount (name : String) (res : Option Account)
  | createProduct (payload : Item)
deriving DecidableEq

def Event.isWrite : Event → Bool
  | .createCategory _ => true
  | .updateProduct _ => true
  | .createProduct _ => true
  | _ => false

def Event.isProductWrite : Event → Bool
  | .updateProduct _ => true
  | .createProduct _ => true
  | _ => false

def Event.isCreateProduct : Event → Bool
  | .createProduct _ => true
  | _ => false

def Event.isSkuLookup : Event → Bool
  | .findBySKU _ _ => true
  | _ => false

/-- The `latest_product` object built at the top of `syncProduct`. -/
structure Target where
  Name : String
  Sku : Option String
  Description : Option String
  PurchaseDesc : Option String
  UnitPrice : Option ℚ
  PurchaseCost : Option ℚ
  Taxable : Bool
  SubItem : Bool
  ParentRef : Option Ref
deriving DecidableEq

def mkTarget (p : NormalizedProduct) (cat : Option Category) : Target :=
  { Name := p.name
    Sku := p.sku
    Description := some p.description
    PurchaseDesc := some p.description
    UnitPrice := p.unit_price
    PurchaseCost := p.purchase_cost
    Taxable := p.taxable
    SubItem := cat.isSome
    ParentRef := cat.map (fun c => ⟨c.value, c.name⟩) }

/-- The parent-reference comparison inside `didChangeProductContent`:
`(!e.ParentRef && !l.ParentRef) || (e.ParentRef && l.ParentRef &&
e.ParentRef.value == l.ParentRef.value)`. -/
def parentRefUnchanged (e l : Option Ref) : Bool :=
  match e, l with
  | none, none => true
  | some a, some b => a.value == b.value
  | _, _ => false

def didChangeProductContent (e : Item) (l : Target) : Bool :=
  !(parentRefUnchanged e.ParentRef l.ParentRef &&
    e.Name == l.Name &&
    e.Sku == l.Sku &&
    e.Description == l.Description &&
    e.UnitPrice == l.UnitPrice &&
    e.PurchaseCost == l.PurchaseCost)

/-- The spread `{...existing_product, ...latest_product}`. -/
def applyTarget (e : Item) (l : Target) : Item :=
  { e with
    Name := l.Name
    Sku := l.Sku
    Description := l.Description
    PurchaseDesc := l.PurchaseDesc
    UnitPrice := l.UnitPrice
    PurchaseCost := l.PurchaseCost
    Taxable := l.Taxable
    SubItem := l.SubItem
    ParentRef := l.ParentRef }

/-- The reconcile update payload:
`{...existing_product, ...latest_product, Active: true, sparse: false}`. -/
def reconcilePayload (e : Item) (l : Target) : Item :=
  { applyTarget e l with Active := true }

/-- The name-collision deactivation payload:
`{...same_name_product, Name: `_${same_name_product.Sku}`, Active: false,
sparse: false}`. -/
def renamePayload (y : Item) : Item :=
  { y with Name := "_" ++ jsStr y.Sku, Active := false }

structure AccountRefs where
  income_account_ref : Option Ref
  expense_account_ref : Option Ref
  asset_account_ref : Option Ref
deriving DecidableEq

/-- One step of the `results.reduce` in `resolveAccountRefs`.  The source
reads `r.Name` with no null check, so a `null` lookup result is a TypeError,
modelled as `Except.error`. -/
def accumAccount (acc : AccountRefs) (r : Option Account) : Except Unit AccountRefs :=
  match r with
  | none => .error ()
  | some a =>
    let acc := if a.Name == "Sales of Product Income" then
        { acc with income_account_ref := some ⟨a.Id, a.Name⟩ } else acc
    let acc := if a.Name == "Cost of Goods Sold" then
        { acc with expense_account_ref := some ⟨a.Id, a.Name⟩ } else acc
    let acc := if a.Name == "Inventory Asset" then
        { acc with asset_account_ref := some ⟨a.Id, a.Name⟩ } else acc
    .ok acc

/-- `resolveAccountRefs`: look up the three fixed ledger accounts and fold
the results into an `AccountRefs` record. -/
def resolveAccountRefs (s : Store) : Except Unit AccountRefs :=
  [findAccountByName s "Sales of Product Income",
   findAccountByName s "Cost of Goods Sold",
   findAccountByName s "Inventory Asset"].foldlM accumAccount ⟨none, none, none⟩

def accountEvents (s : Store) : List Event :=
  [.findAccount "Sales of Product Income" (findAccountByName s "Sales of Product Income"),
   .findAccount "Cost of Goods Sold" (findAccountByName s "Cost of Goods Sold"),
   .findAccount "Inventory Asset" (findAccountByName s "Inventory Asset")]

/-- JS truthiness of `product.category` (an empty category string is falsy). -/
def catOf (p : NormalizedProduct) : Option String :=
  match p.category with
  | some c => if c == "" then none else some c
  | none => none

/-- Step 1 of `syncProduct`: `product.category ? findOrCreateCategoryByName
: null`. -/
def categoryPhase (s : Store) (p : NormalizedProduct) :
    Store × Option Category × List Event :=
  match catOf p with
  | none => (s, none, [])
  | some c =>
    match findCategoryByName s c with
    | some cat => (s, some cat, [.findCategory c (some cat)])
    | none =>
      let sc := createCategoryOp s c
      (sc.1, some sc.2, [.findCategory c none, .createCategory c])

/-- The name-collision guard: look up by name; a same-SKU hit becomes the
`existing_product`, a different-SKU hit is renamed to `` `_${its SKU}` `` and
deactivated (leaving `existing_product` unset). -/
def nameGuard (s : Store) (l : Target) : Store × Option Item × List Event :=
  match findProductByName s l.Name with
  | none => (s, none, [.findByName l.Name none])
  | some y =>
    if y.Sku == l.Sku then (s, some y, [.findByName l.Name (some y)])
    else
      let u := renamePayload y
      (applyUpdate s u, none, [.findByName l.Name (some y), .updateProduct u])

/-- Resolution of `existing_product`: the name guard, then — only if still
unresolved — the SKU lookup. -/
def resolveExisting (s : Store) (l : Target) : Store × Option Item × List Event :=
  match nameGuard s l with
  | (s1, some x, ev) => (s1, some x, ev)
  | (s1, none, ev) =>
    match findProductBySKU s1 l.Sku with
    | some x => (s1, some x, ev ++ [.findBySKU l.Sku (some x)])
    | none => (s1, none, ev ++ [.findBySKU l.Sku none])

/-- Step 5: update the resolved record iff its content changed or it is
inactive, forcing `Active: true`; otherwise leave the store untouched. -/
def reconcileExisting (s : Store) (l : Target) (x : Item) : Store × List Event :=
  if didChangeProductContent x l || !x.Active then
    let u := reconcilePayload x l
    (applyUpdate s u, [.updateProduct u])
  else (s, [])

/-- The payload handed to `createProduct` (the store assigns the real id). -/
def createPayload (l : Target) (refs : AccountRefs) (today : String) : Item :=
  { Id := ""
    Name := l.Name
    Sku := l.Sku
    Description := l.Description
    PurchaseDesc := l.PurchaseDesc
    UnitPrice := l.UnitPrice
    PurchaseCost := l.PurchaseCost
    Taxable := l.Taxable
    Active := true
    SubItem := l.SubItem
    ParentRef := l.ParentRef
    TrackQtyOnHand := true
    QtyOnHand := 0
    InvStartDate := some today
    IncomeAccountRef := refs.income_account_ref
    ExpenseAccountRef := refs.expense_account_ref
    AssetAccountRef := refs.asset_account_ref }

/-- Step 6: resolve the three ledger-account references and create the item. -/
def createFlow (today : String) (s : Store) (l : Target) :
    Except Unit (Store × List Event) :=
  match resolveAccountRefs s with
  | .error e => .error e
  | .ok refs =>
    let payload := createPayload l refs today
    .ok (applyCreate s payload, accountEvents s ++ [.createProduct payload])

/-- `syncProduct`: category resolution, target construction, existing-record
resolution (with the name-collision guard), then reconcile-or-create.
`today` stands for `new Date().toISOString().slice(0, 10)`. -/
def syncProduct (today : String) (s : Store) (p : NormalizedProduct) :
    Except Unit (Store × List Event) :=
  match categoryPhase s p with
  | (sA, cat, ev1) =>
    match resolveExisting sA (mkTarget p cat) with
    | (sB, some x, ev2) =>
      match reconcileExisting sB (mkTarget p cat) x with
      | (sC, ev3) => .ok (sC, ev1 ++ ev2 ++ ev3)
    | (sB, none, ev2) =>
      match createFlow today sB (mkTarget p cat) with
      | .error e => .error e
      | .ok (sC, ev3) => .ok (sC, ev1 ++ ev2 ++ ev3)

/-- The continuation of `syncProduct` on a store where the name guard left
`existing_product` unset: SKU lookup, then reconcile or create. -/
def finishSync (today : String) (s : Store) (l : Target) :
    Except Unit (Store × List Event) :=
  match findProductBySKU s l.Sku with
  | some x =>
    match reconcileExisting s l x with
    | (s2, ev) => .ok (s2, .findBySKU l.Sku (some x) :: ev)
  | none =>
    match createFlow today s l with
    | .error e => .error e
    | .ok (s2, ev) => .ok (s2, .findBySKU l.Sku none :: ev)

/-! ## Engine helper lemmas -/

theorem find?_eq_of_unique {α : Type} (l : List α) (p : α → Bool) (u : α)
    (hmem : u ∈ l) (hu : p u = true) (huniq : ∀ x ∈ l, p x = true → x = u) :
    l.find? p = some u := by
  induction l with
  | nil => cases hmem
  | cons h t ih =>
    by_cases hp : p h = true
    · rw [List.find?_cons_of_pos _ hp, huniq h (List.mem_cons_self h t) hp]
    · rw [List.find?_cons_of_neg _ (by simpa using hp)]
      have hut : u ∈ t := by
        rcases List.mem_cons.mp hmem with he | he
        · exact absurd (he ▸ hu) hp
        · exact he
      exact ih hut (fun x hx hpx => huniq x (List.mem_cons_of_mem h hx) hpx)

theorem findProductByName_some (s : Store) (n : String) (y : Item)
    (h : findProductByName s n = some y) :
    y ∈ s.items ∧ y.Active = true ∧ y.Name = n := by
  have hm := List.mem_of_find?_eq_some h
  have hp := List.find?_some h
  simp only [Bool.and_eq_true, beq_iff_eq] at hp
  exact ⟨hm, hp.1, hp.2⟩

theorem findProductByName_none (s : Store) (n : String)
    (h : findProductByName s n = none) :
    ∀ i ∈ s.items, i.Active = true → i.Name ≠ n := by
  intro i hi hact hname
  have := List.find?_eq_none.mp h i hi
  simp [hact, hname] at this

theorem findProductBySKU_some (s : Store) (k : Option String) (y : Item)
    (h : findProductBySKU s k = some y) :
    y ∈ s.items ∧ y.Active = true ∧ y.Sku = k := by
  have hm := List.mem_of_find?_eq_some h
  have hp := List.find?_some h
  simp only [Bool.and_eq_true, beq_iff_eq] at hp
  exact ⟨hm, hp.1, hp.2⟩

theorem findProductByName_of_unique (s : Store) (n : String) (u : Item)
    (hmem : u ∈ s.items) (hact : u.Active = true) (hname : u.Name = n)
    (huniq : ∀ x ∈ s.items, x.Active = true → x.Name = n → x = u) :
    findProductByName s n = some u := by
  apply find?_eq_of_unique s.items _ u hmem (by simp [hact, hname])
  intro x hx hpx
  simp only [Bool.and_eq_true, beq_iff_eq] at hpx
  exact huniq x hx hpx.1 hpx.2

theorem parentRefUnchanged_self (r : Option Ref) : parentRefUnchanged r r = true := by
  cases r with
  | none => rfl
  | some a => simp [parentRefUnchanged]

theorem didChange_reconcilePayload (e : Item) (l : Target) :
    didChangeProductContent (reconcilePayload e l) l = false := by
  simp [reconcilePayload, didChangeProductContent, applyTarget, parentRefUnchanged_self]

theorem didChange_createPayload (l : Target) (refs : AccountRefs) (today id : String) :
    didChangeProductContent { createPayload l refs today with Id := id } l = false := by
  simp [createPayload, didChangeProductContent, parentRefUnchanged_self]

theorem didChange_false_name (e : Item) (l : Target)
    (h : didChangeProductContent e l = false) : e.Name = l.Name := by
  simp only [didChangeProductContent, Bool.not_eq_false', Bool.and_eq_true, beq_iff_eq] at h
  exact h.1.1.1.1.2

theorem reconcileExisting_eq (s : Store) (l : Target) (x : Item) :
    reconcileExisting s l x
      = (if didChangeProductContent x l || !x.Active
           then applyUpdate s (reconcilePayload x l) else s,
         if didChangeProductContent x l || !x.Active
           then [Event.updateProduct (reconcilePayload x l)] else []) := by
  unfold reconcileExisting
  split <;> simp_all

theorem categoryPhase_no_product_events (s : Store) (p : NormalizedProduct)
    (sA : Store) (cat : Option Category) (ev1 : List Event)
    (h : categoryPhase s p = (sA, cat, ev1)) :
    ∀ e ∈ ev1, e.isCreateProduct = false ∧ e.isProductWrite = false ∧ e.isSkuLookup = false := by
  unfold categoryPhase at h
  rcases hc : catOf p with _ | c
  · rw [hc] at h
    injection h with h1 h2
    injection h2 with h2 h3
    subst h3
    simp
  · rw [hc] at h
    dsimp only at h
    rcases hf : findCategoryByName s c with _ | cat0
    · rw [hf] at h
      dsimp only at h
      injection h with h1 h2
      injection h2 with h2 h3
      subst h3
      intro e he
      rcases List.mem_cons.mp he with he | he
      · subst he; exact ⟨rfl, rfl, rfl⟩
      · rcases List.mem_cons.mp he with he | he
        · subst he; exact ⟨rfl, rfl, rfl⟩
        · cases he
    · rw [hf] at h
      injection h with h1 h2
      injection h2 with h2 h3
      subst h3
      intro e he
      rcases List.mem_cons.mp he with he | he
      · subst he; exact ⟨rfl, rfl, rfl⟩
      · cases he

theorem resolveExisting_no_create (s : Store) (l : Target)
    (s' : Store) (ex : Option Item) (ev : List Event)
    (h : resolveExisting s l = (s', ex, ev)) :
    ∀ e ∈ ev, e.isCreateProduct = false := by
  unfold resolveExisting nameGuard at h
  rcases hn : findProductByName s l.Name with _ | y
  · rw [hn] at h
    dsimp only at h
    rcases hs : findProductBySKU s l.Sku with _ | x <;> rw [hs] at h <;>
      (injection h with h1 h2; injection h2 with h2 h3; subst h3;
       intro e he; simp at he;
       rcases he with he | he <;> subst he <;> rfl)
  · rw [hn] at h
    dsimp only at h
    by_cases hsk : (y.Sku == l.Sku) = true
    · rw [if_pos hsk] at h
      dsimp only at h
      injection h with h1 h2
      injection h2 with h2 h3
      subst h3
      intro e he
      simp at he
      subst he
      rfl
    · rw [if_neg hsk] at h
      dsimp only at h
      rcases hs : findProductBySKU (applyUpdate s (renamePayload y)) l.Sku with _ | x <;>
        rw [hs] at h <;>
        (injection h with h1 h2; injection h2 with h2 h3; subst h3;
         intro e he; simp at he;
         rcases he with he | he | he <;> subst he <;> rfl)

/-! ## Claim C1: update iff changed-or-inactive, never create, for a
resolved existing item -/

/-- Claim C1 (confirmed): whenever `syncProduct` resolves an existing item
`x` (through the name guard with matching SKU, or otherwise through the SKU
lookup — `hres` is exactly that resolution), it issues a reconcile update
iff the existing and target records differ in parent-reference value, name,
SKU, description, unit price or purchase cost, or the existing record is
inactive; the update payload applies the target fields with `Active` forced
true (and keeps the record's id); otherwise no write happens and the store
is unchanged; `createProduct` is never invoked.  (The unconditional
name-collision rename, when it occurs, lives inside `ev2` and is claim
C2/C10's subject.) -/
theorem syncProduct_update_iff_changed (today : String) (s : Store) (p : NormalizedProduct)
    (sA : Store) (cat : Option Category) (ev1 : List Event)
    (sB : Store) (x : Item) (ev2 : List Event)
    (hcat : categoryPhase s p = (sA, cat, ev1))
    (hres : resolveExisting sA (mkTarget p cat) = (sB, some x, ev2)) :
    syncProduct today s p
      = .ok ((if didChangeProductContent x (mkTarget p cat) || !x.Active
               then applyUpdate sB (reconcilePayload x (mkTarget p cat)) else sB),
             ev1 ++ ev2
               ++ (if didChangeProductContent x (mkTarget p cat) || !x.Active
                    then [Event.updateProduct (reconcilePayload x (mkTarget p cat))] else [])) ∧
    (reconcilePayload x (mkTarget p cat)).Active = true ∧
    (reconcilePayload x (mkTarget p cat)).Id = x.Id ∧
    (reconcilePayload x (mkTarget p cat)).Name = (mkTarget p cat).Name ∧
    (reconcilePayload x (mkTarget p cat)).Sku = (mkTarget p cat).Sku ∧
    (reconcilePayload x (mkTarget p cat)).Description = (mkTarget p cat).Description ∧
    (reconcilePayload x (mkTarget p cat)).PurchaseDesc = (mkTarget p cat).PurchaseDesc ∧
    (reconcilePayload x (mkTarget p cat)).UnitPrice = (mkTarget p cat).UnitPrice ∧
    (reconcilePayload x (mkTarget p cat)).PurchaseCost = (mkTarget p cat).PurchaseCost ∧
    (reconcilePayload x (mkTarget p cat)).Taxable = (mkTarget p cat).Taxable ∧
    (reconcilePayload x (mkTarget p cat)).SubItem = (mkTarget p cat).SubItem ∧
    (reconcilePayload x (mkTarget p cat)).ParentRef = (mkTarget p cat).ParentRef ∧
    (∀ e ∈ ev1 ++ ev2
        ++ (if didChangeProductContent x (mkTarget p cat) || !x.Active
             then [Event.updateProduct (reconcilePayload x (mkTarget p cat))] else []),
      e.isCreateProduct = false) := by
  refine ⟨?_, rfl, rfl, rfl, rfl, rfl, rfl, rfl, rfl, rfl, rfl, rfl, ?_⟩
  · unfold syncProduct
    rw [hcat]
    dsimp only
    rw [hres]
    dsimp only
    rw [reconcileExisting_eq]
  · intro e he
    rw [List.append_assoc, List.mem_append] at he
    rcases he with he | he
    · exact (categoryPhase_no_product_events s p sA cat ev1 hcat e he).1
    · rw [List.mem_append] at he
      rcases he with he | he
      · exact resolveExisting_no_create sA (mkTarget p cat) sB (some x) ev2 hres e he
      · revert he
        split <;> intro he <;> simp at he
        subst he
        rfl

/-- A store holding exactly the already-reconciled item, for the C1
witness: the second reconcile of the same product is a no-op. -/
def itemW1 : Item :=
  ⟨"7", "Acme Salsa", some "SK9", some "desc", some "desc", none, none, true, true,
   false, none, true, 0, none, none, none, none⟩

def storeW1 : Store := ⟨[], [itemW1], [], 3⟩

def productW1 : NormalizedProduct := ⟨"Acme Salsa", none, some "SK9", "desc", none, none, true⟩

/-- Witness for C1: the name lookup resolves the matching-SKU item, nothing
differs, and `syncProduct` performs no write. -/
theorem syncProduct_update_iff_changed_witness :
    categoryPhase storeW1 productW1 = (storeW1, none, []) ∧
    resolveExisting storeW1 (mkTarget productW1 none)
      = (storeW1, some itemW1, [Event.findByName "Acme Salsa" (some itemW1)]) ∧
    syncProduct "2026-10-12" storeW1 productW1
      = .ok ((if didChangeProductContent itemW1 (mkTarget productW1 none) || !itemW1.Active
               then applyUpdate storeW1 (reconcilePayload itemW1 (mkTarget productW1 none))
               else storeW1),
             [] ++ [Event.findByName "Acme Salsa" (some itemW1)]
               ++ (if didChangeProductContent itemW1 (mkTarget productW1 none) || !itemW1.Active
                    then [Event.updateProduct (reconcilePayload itemW1 (mkTarget productW1 none))]
                    else [])) ∧
    didChangeProductContent itemW1 (mkTarget productW1 none) = false ∧
    syncProduct "2026-10-12" storeW1 productW1
      = .ok (storeW1, [Event.findByName "Acme Salsa" (some itemW1)]) :=
  ⟨rfl, by decide,
   (syncProduct_update_iff_changed "2026-10-12" storeW1 productW1 storeW1 none []
      storeW1 itemW1 [Event.findByName "Acme Salsa" (some itemW1)] rfl (by decide)).1,
   by decide, by rfl⟩

/-! ## Claim C2: the name-collision guard renames first, then reconciles -/

/-- Claim C2 (confirmed): when the name lookup finds an existing item `y`
whose SKU differs from the target SKU, `syncProduct` updates `y` with the
deactivation payload — name set to an underscore followed by `y`'s own SKU,
active set false (see C10 for the frame) — and this write happens
unconditionally before the SKU lookup and before any further update or
creation: the whole run equals the rename followed by the ordinary
continuation (`finishSync`: SKU lookup, then reconcile-or-create) on the
renamed store, and nothing before the rename is a product write or SKU
lookup. -/
theorem syncProduct_name_collision (today : String) (s : Store) (p : NormalizedProduct)
    (sA : Store) (cat : Option Category) (ev1 : List Event) (y : Item)
    (hcat : categoryPhase s p = (sA, cat, ev1))
    (hname : findProductByName sA (mkTarget p cat).Name = some y)
    (hsku : (y.Sku == (mkTarget p cat).Sku) = false) :
    syncProduct today s p
      = (finishSync today (applyUpdate sA (renamePayload y)) (mkTarget p cat)).map
          (fun r => (r.1, ev1 ++ (Event.findByName (mkTarget p cat).Name (some y)
            :: Event.updateProduct (renamePayload y) :: r.2)))
      ∧ ∀ e ∈ ev1, e.isProductWrite = false ∧ e.isSkuLookup = false := by
  refine ⟨?_, fun e he => ⟨(categoryPhase_no_product_events s p sA cat ev1 hcat e he).2.1,
    (categoryPhase_no_product_events s p sA cat ev1 hcat e he).2.2⟩⟩
  cases hfs : findProductBySKU (applyUpdate sA (renamePayload y)) (mkTarget p cat).Sku with
  | some x =>
    have hre : resolveExisting sA (mkTarget p cat)
        = (applyUpdate sA (renamePayload y), some x,
           [Event.findByName (mkTarget p cat).Name (some y),
            Event.updateProduct (renamePayload y),
            Event.findBySKU (mkTarget p cat).Sku (some x)]) := by
      unfold resolveExisting nameGuard
      rw [hname]
      dsimp only
      rw [if_neg (by rw [hsku]; exact Bool.false_ne_true)]
      dsimp only
      rw [hfs]
      rfl
    unfold syncProduct
    rw [hcat]
    dsimp only
    rw [hre]
    dsimp only
    unfold finishSync
    rw [hfs]
    rcases hrc : reconcileExisting (applyUpdate sA (renamePayload y)) (mkTarget p cat) x
      with ⟨sC, ev3⟩
    dsimp only [Except.map]
    simp [hrc]
  | none =>
    have hre : resolveExisting sA (mkTarget p cat)
        = (applyUpdate sA (renamePayload y), none,
           [Event.findByName (mkTarget p cat).Name (some y),
            Event.updateProduct (renamePayload y),
            Event.findBySKU (mkTarget p cat).Sku none]) := by
      unfold resolveExisting nameGuard
      rw [hname]
      dsimp only
      rw [if_neg (by rw [hsku]; exact Bool.false_ne_true)]
      dsimp only
      rw [hfs]
      rfl
    unfold syncProduct
    rw [hcat]
    dsimp only
    rw [hre]
    dsimp only
    unfold finishSync
    rw [hfs]
    cases hcf : createFlow today (applyUpdate sA (renamePayload y)) (mkTarget p cat) with
    | error e => simp [Except.map]
    | ok r =>
      rcases r with ⟨sC, ev3⟩
      dsimp only [Except.map]
      simp

/-- The spec's name-collision example: an existing `"Acme Salsa"` with SKU
`OLD1`, and an incoming `"Acme Salsa"` with SKU `NEW1`. -/
def itemW2 : Item :=
  ⟨"10", "Acme Salsa", some "OLD1", none, none, none, none, true, true,
   false, none, true, 0, none, none, none, none⟩

def storeW2 : Store :=
  ⟨[], [itemW2],
   [⟨"1", "Sales of Product Income"⟩, ⟨"2", "Cost of Goods Sold"⟩, ⟨"3", "Inventory Asset"⟩],
   100⟩

def productW2 : NormalizedProduct :=
  ⟨"Acme Salsa", none, some "NEW1", "desc", none, none, true⟩

/-- Witness for C2 at the spec's example: the stale record is renamed to
`"_OLD1"` and deactivated, then a new active `"Acme Salsa"`/`NEW1` item is
created under the freed name. -/
theorem syncProduct_name_collision_witness :
    categoryPhase storeW2 productW2 = (storeW2, none, []) ∧
    findProductByName storeW2 "Acme Salsa" = some itemW2 ∧
    (itemW2.Sku == (mkTarget productW2 none).Sku) = false ∧
    syncProduct "2026-10-12" storeW2 productW2
      = (finishSync "2026-10-12" (applyUpdate storeW2 (renamePayload itemW2))
            (mkTarget productW2 none)).map
          (fun r => (r.1, [] ++ (Event.findByName (mkTarget productW2 none).Name (some itemW2)
            :: Event.updateProduct (renamePayload itemW2) :: r.2))) ∧
    (syncProduct "2026-10-12" storeW2 productW2).map
        (fun r => r.1.items.map (fun i => (i.Name, i.Sku, i.Active)))
      = .ok [("_OLD1", some "OLD1", false), ("Acme Salsa", some "NEW1", true)] :=
  ⟨rfl, by decide, by decide,
   (syncProduct_name_collision "2026-10-12" storeW2 productW2 storeW2 none [] itemW2
      rfl (by decide) (by decide)).1,
   by rfl⟩

/-! ## Claim C3: reconciliation idempotence -/


theorem categoryPhase_items (s : Store) (p : NormalizedProduct)
    (sA : Store) (cat : Option Category) (ev : List Event)
    (h : categoryPhase s p = (sA, cat, ev)) :
    sA.items = s.items ∧ sA.accounts = s.accounts := by
  unfold categoryPhase at h
  rcases hc : catOf p with _ | c
  · rw [hc] at h
    injection h with h1 h2
    subst h1
    exact ⟨rfl, rfl⟩
  · rw [hc] at h
    dsimp only at h
    rcases hf : findCategoryByName s c with _ | cat0 <;> rw [hf] at h <;>
      (dsimp only at h; injection h with h1 h2; subst h1; exact ⟨rfl, rfl⟩)

theorem categoryPhase_rerun (s : Store) (p : NormalizedProduct)
    (sA : Store) (cat : Option Category) (ev : List Event)
    (h : categoryPhase s p = (sA, cat, ev))
    (t : Store) (hcats : t.categories = sA.categories) :
    ∃ ev', categoryPhase t p = (t, cat, ev') ∧ ∀ e ∈ ev', e.isWrite = false := by
  unfold categoryPhase at h ⊢
  rcases hc : catOf p with _ | c
  · rw [hc] at h
    dsimp only at h
    injection h with h1 h2
    injection h2 with h2 h3
    subst h2
    exact ⟨[], rfl, by simp⟩
  · rw [hc] at h
    dsimp only at h
    rcases hf : findCategoryByName s c with _ | cat0
    · rw [hf] at h
      dsimp only at h
      injection h with h1 h2
      injection h2 with h2 h3
      subst h1 h2
      have hft : findCategoryByName t c = some (createCategoryOp s c).2 := by
        unfold findCategoryByName at hf ⊢
        rw [hcats]
        show ((createCategoryOp s c).1.categories.find? fun c0 => c0.name == c) = _
        unfold createCategoryOp
        dsimp only
        rw [List.find?_append, hf]
        rw [List.find?_cons_of_pos _ (by simp)]
        rfl
      dsimp only
      rw [hft]
      exact ⟨[Event.findCategory c (some (createCategoryOp s c).2)], rfl, by
        intro e he
        simp at he
        subst he
        rfl⟩
    · rw [hf] at h
      injection h with h1 h2
      injection h2 with h2 h3
      subst h1 h2
      have hft : findCategoryByName t c = some cat0 := by
        unfold findCategoryByName at hf ⊢
        rw [hcats]
        exact hf
      dsimp only
      rw [hft]
      exact ⟨[Event.findCategory c (some cat0)], rfl, by
        intro e he
        simp at he
        subst he
        rfl⟩

theorem syncProduct_noop (today : String) (s1 : Store) (p : NormalizedProduct)
    (cat : Option Category) (ev : List Event) (w : Item)
    (hcat : categoryPhase s1 p = (s1, cat, ev))
    (hevw : ∀ e ∈ ev, e.isWrite = false)
    (hfind : findProductByName s1 (mkTarget p cat).Name = some w)
    (hsku : w.Sku = (mkTarget p cat).Sku)
    (hnc : didChangeProductContent w (mkTarget p cat) = false)
    (hact : w.Active = true) :
    ∃ tr2, syncProduct today s1 p = .ok (s1, tr2) ∧ ∀ e ∈ tr2, e.isWrite = false := by
  refine ⟨ev ++ [Event.findByName (mkTarget p cat).Name (some w)], ?_, ?_⟩
  · have hres : resolveExisting s1 (mkTarget p cat)
        = (s1, some w, [Event.findByName (mkTarget p cat).Name (some w)]) := by
      unfold resolveExisting nameGuard
      rw [hfind]
      dsimp only
      rw [if_pos (by simp [hsku])]
    unfold syncProduct
    rw [hcat]
    dsimp only
    rw [hres]
    dsimp only
    rw [reconcileExisting_eq]
    simp [hnc, hact]
  · intro e he
    rcases List.mem_append.mp he with he | he
    · exact hevw e he
    · simp at he
      subst he
      rfl



theorem applyUpdate_items (s : Store) (u : Item) :
    (applyUpdate s u).items = s.items.map (fun i => if i.Id == u.Id then u else i) := rfl

theorem applyCreate_items (s : Store) (u : Item) :
    (applyCreate s u).items = s.items ++ [{ u with Id := toString s.next_id }] := rfl

theorem reconcilePayload_Id (e : Item) (l : Target) : (reconcilePayload e l).Id = e.Id := rfl

theorem findProductByName_update (s : Store) (u : Item) (n : String)
    (hu : u.Active = true) (hun : u.Name = n)
    (hmem : ∃ orig ∈ s.items, (orig.Id == u.Id) = true)
    (honly : ∀ x ∈ s.items, x.Id ≠ u.Id → x.Active = true → x.Name ≠ n) :
    findProductByName (applyUpdate s u) n = some u := by
  apply findProductByName_of_unique
  · obtain ⟨orig, ho, hoid⟩ := hmem
    rw [applyUpdate_items]
    exact List.mem_map.mpr ⟨orig, ho, by rw [if_pos hoid]⟩
  · exact hu
  · exact hun
  · intro x hx hxact hxname
    rw [applyUpdate_items] at hx
    rcases List.mem_map.mp hx with ⟨orig, ho, heq⟩
    by_cases hoid : (orig.Id == u.Id) = true
    · rw [if_pos hoid] at heq
      exact heq.symm
    · rw [if_neg hoid] at heq
      subst heq
      exact absurd hxname (honly orig ho (by simpa using hoid) hxact)

theorem findProductByName_create (s : Store) (payload : Item) (n : String)
    (hact : payload.Active = true) (hnm : payload.Name = n)
    (honly : ∀ x ∈ s.items, x.Active = true → x.Name ≠ n) :
    findProductByName (applyCreate s payload) n
      = some { payload with Id := toString s.next_id } := by
  apply findProductByName_of_unique
  · rw [applyCreate_items]
    exact List.mem_append.mpr (Or.inr (List.mem_singleton.mpr rfl))
  · exact hact
  · exact hnm
  · intro x hx hxact hxname
    rw [applyCreate_items] at hx
    rcases List.mem_append.mp hx with hx | hx
    · exact absurd hxname (honly x hx hxact)
    · exact (List.mem_singleton.mp hx)

theorem createFlow_ok (today : String) (s : Store) (l : Target)
    (sC : Store) (ev3 : List Event) (h : createFlow today s l = .ok (sC, ev3)) :
    ∃ refs, resolveAccountRefs s = .ok refs ∧
      sC = applyCreate s (createPayload l refs today) ∧
      ev3 = accountEvents s ++ [Event.createProduct (createPayload l refs today)] := by
  unfold createFlow at h
  cases ha : resolveAccountRefs s with
  | error e => rw [ha] at h; simp at h
  | ok refs =>
    rw [ha] at h
    dsimp only at h
    rw [Except.ok.injEq, Prod.mk.injEq] at h
    exact ⟨refs, rfl, h.1.symm, h.2.symm⟩



/-- Claim C3 (confirmed): for every normalized product (with or without a
category), if a first `syncProduct` run against a store whose active item
names are unique succeeds and leaves store `s1`, then a second run against
`s1` — the capabilities answering from exactly the state the first call
left — succeeds, leaves the store unchanged, and invokes no write
capability (no `createCategory`, `createProduct` or `updateProduct` event).
The second call's date may differ; item lookups return active records only
(the QuickBooks Online query default). -/
theorem syncProduct_idempotent (today today2 : String) (s0 : Store) (p : NormalizedProduct)
    (s1 : Store) (tr : List Event)
    (huniq : ∀ x ∈ s0.items, ∀ y ∈ s0.items,
      x.Active = true → y.Active = true → x.Name = y.Name → x = y)
    (h1 : syncProduct today s0 p = .ok (s1, tr)) :
    ∃ tr2, syncProduct today2 s1 p = .ok (s1, tr2) ∧ ∀ e ∈ tr2, e.isWrite = false := by
  unfold syncProduct at h1
  rcases hc : categoryPhase s0 p with ⟨sA, cat, ev1⟩
  rw [hc] at h1
  dsimp only at h1
  obtain ⟨hAitems, hAacc⟩ := categoryPhase_items s0 p sA cat ev1 hc
  set l := mkTarget p cat with hldef
  cases hfn : findProductByName sA l.Name with
  | some y =>
    obtain ⟨hyMem, hyAct, hyName⟩ :
        y ∈ s0.items ∧ y.Active = true ∧ y.Name = l.Name := by
      have h := findProductByName_some sA _ y hfn
      exact ⟨hAitems ▸ h.1, h.2.1, h.2.2⟩
    by_cases hsk : (y.Sku == l.Sku) = true
    · -- resolved by name with matching SKU
      have hre : resolveExisting sA l
          = (sA, some y, [Event.findByName l.Name (some y)]) := by
        unfold resolveExisting nameGuard
        rw [hfn]
        dsimp only
        rw [if_pos hsk]
      rw [hre] at h1
      dsimp only at h1
      rw [reconcileExisting_eq] at h1
      by_cases hcond : (didChangeProductContent y l || !y.Active) = true
      · rw [if_pos hcond, if_pos hcond] at h1
        rw [Except.ok.injEq, Prod.mk.injEq] at h1
        obtain ⟨hs1, htr⟩ := h1
        subst hs1
        obtain ⟨ev', hcp, hevw⟩ :=
          categoryPhase_rerun s0 p sA cat ev1 hc
            (applyUpdate sA (reconcilePayload y l)) rfl
        exact syncProduct_noop today2 _ p cat ev' (reconcilePayload y l) hcp hevw
          (findProductByName_update sA (reconcilePayload y l) l.Name rfl rfl
            ⟨y, hAitems ▸ hyMem, by rw [reconcilePayload_Id]; simp⟩
            (fun x hx hxid hxact hxname => by
              have hxy : x = y :=
                huniq x (hAitems ▸ hx) y hyMem hxact hyAct (hxname.trans hyName.symm)
              exact hxid (by rw [hxy, reconcilePayload_Id])))
          rfl (didChange_reconcilePayload y l) rfl
      · rw [if_neg hcond, if_neg hcond] at h1
        rw [Except.ok.injEq, Prod.mk.injEq] at h1
        obtain ⟨hs1, htr⟩ := h1
        subst hs1
        simp only [Bool.or_eq_true, Bool.not_eq_true', not_or, Bool.not_eq_true] at hcond
        obtain ⟨ev', hcp, hevw⟩ := categoryPhase_rerun s0 p sA cat ev1 hc sA rfl
        exact syncProduct_noop today2 sA p cat ev' y hcp hevw hfn
          (by simpa using hsk) hcond.1 (by simpa using hcond.2)
    · -- name collision: rename, then resolve by SKU
      have hyskne : y.Sku ≠ l.Sku := by simpa using hsk
      cases hfs : findProductBySKU (applyUpdate sA (renamePayload y)) l.Sku with
      | some z =>
        have hre : resolveExisting sA l
            = (applyUpdate sA (renamePayload y), some z,
               [Event.findByName l.Name (some y),
                Event.updateProduct (renamePayload y),
                Event.findBySKU l.Sku (some z)]) := by
          unfold resolveExisting nameGuard
          rw [hfn]
          dsimp only
          rw [if_neg hsk]
          dsimp only
          rw [hfs]
          rfl
        rw [hre] at h1
        dsimp only at h1
        rw [reconcileExisting_eq] at h1
        -- facts about z
        obtain ⟨hzMem', hzAct, hzSku⟩ :=
          findProductBySKU_some (applyUpdate sA (renamePayload y)) l.Sku z hfs
        rw [applyUpdate_items, hAitems] at hzMem'
        rcases List.mem_map.mp hzMem' with ⟨orig, ho, heq⟩
        by_cases hoid : (orig.Id == (renamePayload y).Id) = true
        · rw [if_pos hoid] at heq
          rw [← heq] at hzAct
          exact absurd hzAct (by simp [renamePayload])
        · rw [if_neg hoid] at heq
          subst heq
          -- so z itself is in s0.items, with z.Id ≠ y.Id
          have hzy : orig.Id ≠ y.Id := by simpa [renamePayload] using hoid
          have hzname : orig.Name ≠ l.Name := by
            intro hn
            have : orig = y := huniq orig ho y hyMem hzAct hyAct (hn.trans hyName.symm)
            exact hyskne (this ▸ hzSku)
          have hcond : (didChangeProductContent orig l || !orig.Active) = true := by
            rcases hdc : didChangeProductContent orig l with _ | _
            · exact absurd (didChange_false_name orig l hdc) hzname
            · simp
          rw [if_pos hcond, if_pos hcond] at h1
          rw [Except.ok.injEq, Prod.mk.injEq] at h1
          obtain ⟨hs1, htr⟩ := h1
          subst hs1
          obtain ⟨ev', hcp, hevw⟩ :=
            categoryPhase_rerun s0 p sA cat ev1 hc
              (applyUpdate (applyUpdate sA (renamePayload y)) (reconcilePayload orig l)) rfl
          refine syncProduct_noop today2 _ p cat ev' (reconcilePayload orig l) hcp hevw
            ?_ rfl (didChange_reconcilePayload orig l) rfl
          apply findProductByName_update _ (reconcilePayload orig l) l.Name rfl rfl
          · refine ⟨orig, ?_, by rw [reconcilePayload_Id]; simp⟩
            rw [applyUpdate_items, hAitems]
            exact List.mem_map.mpr ⟨orig, ho, by rw [if_neg hoid]⟩
          · intro x hx hxid hxact hxname
            rw [applyUpdate_items, hAitems] at hx
            rcases List.mem_map.mp hx with ⟨o2, ho2, heq2⟩
            by_cases ho2id : (o2.Id == (renamePayload y).Id) = true
            · rw [if_pos ho2id] at heq2
              rw [← heq2] at hxact
              exact absurd hxact (by simp [renamePayload])
            · rw [if_neg ho2id] at heq2
              subst heq2
              have : o2 = y := huniq o2 ho2 y hyMem hxact hyAct (hxname.trans hyName.symm)
              exact ho2id (by simp [renamePayload, this])
      | none =>
        have hre : resolveExisting sA l
            = (applyUpdate sA (renamePayload y), none,
               [Event.findByName l.Name (some y),
                Event.updateProduct (renamePayload y),
                Event.findBySKU l.Sku none]) := by
          unfold resolveExisting nameGuard
          rw [hfn]
          dsimp only
          rw [if_neg hsk]
          dsimp only
          rw [hfs]
          rfl
        rw [hre] at h1
        dsimp only at h1
        cases hcf : createFlow today (applyUpdate sA (renamePayload y)) l with
        | error e => rw [hcf] at h1; simp at h1
        | ok r =>
          rcases r with ⟨sC, ev3⟩
          rw [hcf] at h1
          dsimp only at h1
          rw [Except.ok.injEq, Prod.mk.injEq] at h1
          obtain ⟨hs1, htr⟩ := h1
          obtain ⟨refs, hacc, hsC, hev3⟩ :=
            createFlow_ok today _ l sC ev3 hcf
          rw [hsC] at hs1
          subst hs1
          obtain ⟨ev', hcp, hevw⟩ :=
            categoryPhase_rerun s0 p sA cat ev1 hc
              (applyCreate (applyUpdate sA (renamePayload y)) (createPayload l refs today)) rfl
          refine syncProduct_noop today2 _ p cat ev'
            { createPayload l refs today with
                Id := toString (applyUpdate sA (renamePayload y)).next_id }
            hcp hevw ?_ rfl (didChange_createPayload l refs today _) rfl
          apply findProductByName_create _ (createPayload l refs today) l.Name rfl rfl
          intro x hx hxact hxname
          rw [applyUpdate_items, hAitems] at hx
          rcases List.mem_map.mp hx with ⟨o2, ho2, heq2⟩
          by_cases ho2id : (o2.Id == (renamePayload y).Id) = true
          · rw [if_pos ho2id] at heq2
            rw [← heq2] at hxact
            exact absurd hxact (by simp [renamePayload])
          · rw [if_neg ho2id] at heq2
            subst heq2
            have : o2 = y := huniq o2 ho2 y hyMem hxact hyAct (hxname.trans hyName.symm)
            exact absurd (by simp [renamePayload, this]) ho2id
  | none =>
    have hno : ∀ i ∈ s0.items, i.Active = true → i.Name ≠ l.Name := by
      intro i hi hact
      exact findProductByName_none sA l.Name hfn i (hAitems ▸ hi) hact
    cases hfs : findProductBySKU sA l.Sku with
    | some z =>
      have hre : resolveExisting sA l
          = (sA, some z, [Event.findByName l.Name none, Event.findBySKU l.Sku (some z)]) := by
        unfold resolveExisting nameGuard
        rw [hfn]
        dsimp only
        rw [hfs]
        rfl
      rw [hre] at h1
      dsimp only at h1
      rw [reconcileExisting_eq] at h1
      obtain ⟨hzMem', hzAct, hzSku⟩ := findProductBySKU_some sA l.Sku z hfs
      rw [hAitems] at hzMem'
      have hzname : z.Name ≠ l.Name := hno z hzMem' hzAct
      have hcond : (didChangeProductContent z l || !z.Active) = true := by
        rcases hdc : didChangeProductContent z l with _ | _
        · exact absurd (didChange_false_name z l hdc) hzname
        · simp
      rw [if_pos hcond, if_pos hcond] at h1
      rw [Except.ok.injEq, Prod.mk.injEq] at h1
      obtain ⟨hs1, htr⟩ := h1
      subst hs1
      obtain ⟨ev', hcp, hevw⟩ :=
        categoryPhase_rerun s0 p sA cat ev1 hc (applyUpdate sA (reconcilePayload z l)) rfl
      refine syncProduct_noop today2 _ p cat ev' (reconcilePayload z l) hcp hevw
        ?_ rfl (didChange_reconcilePayload z l) rfl
      apply findProductByName_update sA (reconcilePayload z l) l.Name rfl rfl
      · exact ⟨z, hAitems ▸ hzMem', by rw [reconcilePayload_Id]; simp⟩
      · intro x hx hxid hxact hxname
        exact hno x (hAitems ▸ hx) hxact hxname
    | none =>
      have hre : resolveExisting sA l
          = (sA, none, [Event.findByName l.Name none, Event.findBySKU l.Sku none]) := by
        unfold resolveExisting nameGuard
        rw [hfn]
        dsimp only
        rw [hfs]
        rfl
      rw [hre] at h1
      dsimp only at h1
      cases hcf : createFlow today sA l with
      | error e => rw [hcf] at h1; simp at h1
      | ok r =>
        rcases r with ⟨sC, ev3⟩
        rw [hcf] at h1
        dsimp only at h1
        rw [Except.ok.injEq, Prod.mk.injEq] at h1
        obtain ⟨hs1, htr⟩ := h1
        obtain ⟨refs, hacc, hsC, hev3⟩ := createFlow_ok today sA l sC ev3 hcf
        rw [hsC] at hs1
        subst hs1
        obtain ⟨ev', hcp, hevw⟩ :=
          categoryPhase_rerun s0 p sA cat ev1 hc
            (applyCreate sA (createPayload l refs today)) rfl
        refine syncProduct_noop today2 _ p cat ev'
          { createPayload l refs today with Id := toString sA.next_id }
          hcp hevw ?_ rfl (didChange_createPayload l refs today _) rfl
        apply findProductByName_create sA (createPayload l refs today) l.Name rfl rfl
        intro x hx hxact hxname
        exact hno x (hAitems ▸ hx) hxact hxname


/-- The store after the first witness run: the stale record renamed and
deactivated, the new item created. -/
def renamedW3 : Item :=
  ⟨"10", "_OLD1", some "OLD1", none, none, none, none, true, false,
   false, none, true, 0, none, none, none, none⟩

def createdW3 : Item :=
  ⟨"100", "Acme Salsa", some "NEW1", some "desc", some "desc", none, none, true, true,
   false, none, true, 0, some "2026-10-12",
   some ⟨"1", "Sales of Product Income"⟩, some ⟨"2", "Cost of Goods Sold"⟩,
   some ⟨"3", "Inventory Asset"⟩⟩

def storeW3 : Store :=
  ⟨[], [renamedW3, createdW3],
   [⟨"1", "Sales of Product Income"⟩, ⟨"2", "Cost of Goods Sold"⟩, ⟨"3", "Inventory Asset"⟩],
   101⟩

def traceW3 : List Event :=
  [.findByName "Acme Salsa" (some itemW2),
   .updateProduct (renamePayload itemW2),
   .findBySKU (some "NEW1") none,
   .findAccount "Sales of Product Income" (some ⟨"1", "Sales of Product Income"⟩),
   .findAccount "Cost of Goods Sold" (some ⟨"2", "Cost of Goods Sold"⟩),
   .findAccount "Inventory Asset" (some ⟨"3", "Inventory Asset"⟩),
   .createProduct { createdW3 with Id := "" }]

/-- Witness for C3: the first call on the collision store performs the
rename and the create; the second call performs zero writes and leaves the
store untouched. -/
theorem syncProduct_idempotent_witness :
    (∀ x ∈ storeW2.items, ∀ y ∈ storeW2.items,
      x.Active = true → y.Active = true → x.Name = y.Name → x = y) ∧
    syncProduct "2026-10-12" storeW2 productW2 = .ok (storeW3, traceW3) ∧
    ∃ tr2, syncProduct "2026-10-13" storeW3 productW2 = .ok (storeW3, tr2) ∧
      ∀ e ∈ tr2, e.isWrite = false :=
  ⟨by decide, by rfl,
   syncProduct_idempotent "2026-10-12" "2026-10-13" storeW2 productW2 storeW3 traceW3
     (by decide) (by rfl)⟩

/-! ## Claim C8: the generated product name -/

/-- The option values the generator keeps: truthy and not the
`"Default Title"` sentinel, in option order. -/
def keptOptionValues (opts : List SelectedOption) : List String :=
  opts.filterMap (fun o =>
    match o.value with
    | some v => if v != "" && v != "Default Title" then some v else none
    | none => none)

theorem generateProductName_fold_aux (opts : List SelectedOption) :
    ∀ acc : String,
      opts.foldl
        (fun n o =>
          match o.value with
          | some v => if v != "" && v != "Default Title" then n ++ " " ++ v else n
          | none => n) acc
      = String.intercalate.go acc " " (keptOptionValues opts) := by
  induction opts with
  | nil => intro acc; rfl
  | cons o rest ih =>
    intro acc
    rcases o with ⟨val⟩
    cases val with
    | none => simpa [keptOptionValues, List.filterMap_cons] using ih acc
    | some v =>
      by_cases hv : (v != "" && v != "Default Title") = true
      · simp only [List.foldl_cons, keptOptionValues, List.filterMap_cons, hv, if_true]
        rw [ih (acc ++ " " ++ v)]
        rfl
      · simp only [List.foldl_cons, keptOptionValues, List.filterMap_cons,
          Bool.not_eq_true] at hv ⊢
        simp only [hv, if_false]
        simpa [keptOptionValues] using ih acc

/-- Claim C8 (confirmed): the generated product name is vendor and title
space-joined, followed by each selected-option value that is non-empty and
not `"Default Title"`, in option order, space-joined, with no truncation or
sanitization; in particular the two spec examples hold. -/
theorem generateProductName_spec :
    (∀ (vendor title : String) (opts : List SelectedOption),
        generateProductName vendor title opts
          = String.intercalate " " (vendor :: title :: keptOptionValues opts)) ∧
    generateProductName "Acme" "Salsa" [⟨some "Default Title"⟩] = "Acme Salsa" ∧
    generateProductName "Acme" "Salsa" [⟨some "Hot"⟩] = "Acme Salsa Hot" := by
  refine ⟨fun vendor title opts => ?_, by decide, by decide⟩
  show _ = String.intercalate.go vendor " " (title :: keptOptionValues opts)
  rw [generateProductName, generateProductName_fold_aux]
  rfl

/-! ## Claim C9: the pagination driver -/

def concatItems {α : Type} : List (Page α) → List α
  | [] => []
  | pg :: rest => pg.items ++ concatItems rest

/-- The cursor arguments the driver passes for a given page sequence. -/
def callsFrom {α : Type} : Option String → List (Page α) → List (Option String)
  | _, [] => []
  | cur, pg :: rest => cur :: callsFrom pg.next_cursor rest

/-- The fetch capability serves this (non-empty) page sequence from `cur`:
each page is the successful response to its cursor, every page but the last
carries a truthy (non-empty) next cursor, and the last reports no further
cursor (null or the JS-falsy empty string). -/
def PageChain {α : Type} (fetch : Option String → Except Unit (Page α)) :
    Option String → List (Page α) → Prop
  | _, [] => False
  | cur, [pg] => fetch cur = .ok pg ∧ blank pg.next_cursor = true
  | cur, pg :: rest =>
    fetch cur = .ok pg ∧ ∃ c, pg.next_cursor = some c ∧ c ≠ "" ∧ PageChain fetch (some c) rest

/-- The fetch capability serves these pages from `cur` (each with a truthy
next cursor) and then reaches cursor `cur2`. -/
def PagePrefix {α : Type} (fetch : Option String → Except Unit (Page α)) :
    Option String → List (Page α) → Option String → Prop
  | cur, [], cur2 => cur = cur2
  | cur, pg :: rest, cur2 =>
    fetch cur = .ok pg ∧ ∃ c, pg.next_cursor = some c ∧ c ≠ "" ∧ PagePrefix fetch (some c) rest cur2

theorem getAllPages_of_chain {α : Type} (fetch : Option String → Except Unit (Page α)) :
    ∀ (ps : List (Page α)) (cur : Option String) (fuel : Nat),
      PageChain fetch cur ps → ps.length ≤ fuel →
      getAllPages fetch fuel cur = .ok (concatItems ps, callsFrom cur ps) := by
  intro ps
  induction ps with
  | nil => intro cur fuel h; exact absurd h (by simp [PageChain])
  | cons pg rest ih =>
    intro cur fuel h hlen
    cases fuel with
    | zero => simp at hlen
    | succ f =>
      cases rest with
      | nil =>
        rcases h with ⟨hf, hn⟩
        cases hnc : pg.next_cursor with
        | none => simp [getAllPages, hf, hnc, concatItems, callsFrom]
        | some c =>
          rw [hnc] at hn
          have hc : (c == "") = true := by simpa [blank] using hn
          simp [getAllPages, hf, hnc, hc, concatItems, callsFrom]
      | cons q qs =>
        rcases h with ⟨hf, c, hn, hne, hchain⟩
        have hcne : (c == "") = false := by simpa using hne
        have := ih (some c) f hchain (by simpa using Nat.succ_le_succ_iff.mp hlen)
        simp [getAllPages, hf, hn, hcne, this, concatItems, callsFrom]

theorem getAllPages_of_failure {α : Type} (fetch : Option String → Except Unit (Page α)) :
    ∀ (ps : List (Page α)) (cur cur2 : Option String) (fuel : Nat),
      PagePrefix fetch cur ps cur2 → fetch cur2 = .error () → ps.length < fuel →
      getAllPages fetch fuel cur = .error () := by
  intro ps
  induction ps with
  | nil =>
    intro cur cur2 fuel h herr hlen
    cases fuel with
    | zero => simp at hlen
    | succ f =>
      have hc : cur = cur2 := h
      simp [getAllPages, hc, herr]
  | cons pg rest ih =>
    intro cur cur2 fuel h herr hlen
    cases fuel with
    | zero => simp at hlen
    | succ f =>
      rcases h with ⟨hf, c, hn, hne, hpre⟩
      have hcne : (c == "") = false := by simpa using hne
      have := ih (some c) cur2 f hpre herr (by simpa using Nat.succ_lt_succ_iff.mp hlen)
      simp [getAllPages, hf, hn, hcne, this]

theorem callsFrom_length {α : Type} :
    ∀ (ps : List (Page α)) (cur : Option String), (callsFrom cur ps).length = ps.length := by
  intro ps
  induction ps with
  | nil => intro cur; rfl
  | cons pg rest ih => intro cur; simp [callsFrom, ih]

/-- Claim C9 (confirmed): for a fetch capability serving a page chain, the
driver starts with no cursor, follows each returned (truthy) cursor once,
stops at the first page reporting no further cursor — a null or, by JS
falsiness of `!current_cursor`, an empty-string cursor — and returns the
page item lists concatenated in page order, with exactly one capability
invocation per page (the cursor argument list has one entry per page); a
failing page call aborts the whole collection with that failure. -/
theorem getAllProductVariants_pagination {α : Type}
    (fetch : Option String → Except Unit (Page α)) :
    (∀ (ps : List (Page α)) (cur : Option String) (fuel : Nat),
        PageChain fetch cur ps → ps.length ≤ fuel →
        getAllPages fetch fuel cur = .ok (concatItems ps, callsFrom cur ps) ∧
        (callsFrom cur ps).length = ps.length) ∧
    (∀ (ps : List (Page α)) (fuel : Nat),
        PageChain fetch none ps → ps.length ≤ fuel →
        getAllProductVariants fetch fuel = .ok (concatItems ps)) ∧
    (∀ (ps : List (Page α)) (cur cur2 : Option String) (fuel : Nat),
        PagePrefix fetch cur ps cur2 → fetch cur2 = .error () → ps.length < fuel →
        getAllPages fetch fuel cur = .error ()) := by
  refine ⟨fun ps cur fuel h hlen => ⟨getAllPages_of_chain fetch ps cur fuel h hlen,
    callsFrom_length ps cur⟩, fun ps fuel h hlen => ?_,
    getAllPages_of_failure fetch⟩
  rw [getAllProductVariants, getAllPages_of_chain fetch ps none fuel h hlen]
  rfl

/-- A three-page fetch capability for the pagination witness. -/
def fetchThreePages : Option String → Except Unit (Page Nat) := fun c =>
  match c with
  | none => .ok ⟨[1, 2], some "c1"⟩
  | some "c1" => .ok ⟨[3], some "c2"⟩
  | some "c2" => .ok ⟨[4, 5], none⟩
  | _ => .error ()

def threePages : List (Page Nat) := [⟨[1, 2], some "c1"⟩, ⟨[3], some "c2"⟩, ⟨[4, 5], none⟩]

/-- A capability whose second page call fails. -/
def fetchFailingPage : Option String → Except Unit (Page Nat) := fun c =>
  match c with
  | none => .ok ⟨[7], some "c1"⟩
  | _ => .error ()

/-- A capability whose first page reports the JS-falsy empty-string cursor
(and would fail on any further call). -/
def fetchEmptyCursor : Option String → Except Unit (Page Nat) := fun c =>
  match c with
  | none => .ok ⟨[9, 10], some ""⟩
  | _ => .error ()

/-- Witness for C9: three pages with cursors c1, c2, then none produce the
five items in order with three invocations; a failing second page aborts
the collection; and an empty-string cursor stops the loop after a single
invocation, just like a null one. -/
theorem getAllProductVariants_pagination_witness :
    PageChain fetchThreePages none threePages ∧
    threePages.length ≤ 3 ∧
    getAllPages fetchThreePages 3 none
      = .ok ([1, 2, 3, 4, 5], [none, some "c1", some "c2"]) ∧
    getAllProductVariants fetchThreePages 3 = .ok [1, 2, 3, 4, 5] ∧
    PagePrefix fetchFailingPage none [⟨[7], some "c1"⟩] (some "c1") ∧
    getAllPages fetchFailingPage 2 none = .error () ∧
    PageChain fetchEmptyCursor none [⟨[9, 10], some ""⟩] ∧
    getAllPages fetchEmptyCursor 1 none = .ok ([9, 10], [none]) :=
  ⟨⟨rfl, "c1", rfl, by decide, rfl, "c2", rfl, by decide, rfl, rfl⟩, by decide,
   ((getAllProductVariants_pagination fetchThreePages).1 threePages none 3
      ⟨rfl, "c1", rfl, by decide, rfl, "c2", rfl, by decide, rfl, rfl⟩ (by decide)).1,
   (getAllProductVariants_pagination fetchThreePages).2.1 threePages 3
      ⟨rfl, "c1", rfl, by decide, rfl, "c2", rfl, by decide, rfl, rfl⟩ (by decide),
   ⟨rfl, "c1", rfl, by decide, rfl⟩,
   (getAllProductVariants_pagination fetchFailingPage).2.2 [⟨[7], some "c1"⟩] none
      (some "c1") 2 ⟨rfl, "c1", rfl, by decide, rfl⟩ rfl (by decide),
   ⟨rfl, rfl⟩,
   ((getAllProductVariants_pagination fetchEmptyCursor).1 [⟨[9, 10], some ""⟩] none 1
      ⟨rfl, rfl⟩ (by decide)).1⟩

/-! ## Claim C10: the deactivation write preserves every other field -/

/-- Claim C10 (confirmed): the name-collision deactivation payload (what
`syncProduct` sends through `updateProduct` in the different-SKU branch, see
the C2 theorem) carries every field of the stale record unchanged except
`Name` (set to an underscore followed by the record's own SKU) and `Active`
(set to false): id, SKU, descriptions, prices, taxable, sub-item, parent and
account references and quantity fields are all preserved. -/
theorem renamePayload_frame (y : Item) :
    (renamePayload y).Name = "_" ++ jsStr y.Sku ∧
    (renamePayload y).Active = false ∧
    (renamePayload y).Id = y.Id ∧
    (renamePayload y).Sku = y.Sku ∧
    (renamePayload y).Description = y.Description ∧
    (renamePayload y).PurchaseDesc = y.PurchaseDesc ∧
    (renamePayload y).UnitPrice = y.UnitPrice ∧
    (renamePayload y).PurchaseCost = y.PurchaseCost ∧
    (renamePayload y).Taxable = y.Taxable ∧
    (renamePayload y).SubItem = y.SubItem ∧
    (renamePayload y).ParentRef = y.ParentRef ∧
    (renamePayload y).TrackQtyOnHand = y.TrackQtyOnHand ∧
    (renamePayload y).QtyOnHand = y.QtyOnHand ∧
    (renamePayload y).InvStartDate = y.InvStartDate ∧
    (renamePayload y).IncomeAccountRef = y.IncomeAccountRef ∧
    (renamePayload y).ExpenseAccountRef = y.ExpenseAccountRef ∧
    (renamePayload y).AssetAccountRef = y.AssetAccountRef :=
  ⟨rfl, rfl, rfl, rfl, rfl, rfl, rfl, rfl, rfl, rfl, rfl, rfl, rfl, rfl, rfl, rfl, rfl⟩

/-! ## Claim C6: a missing ledger account during the create path -/

theorem except_error_bind {ε α β : Type} (e : ε) (f : α → Except ε β) :
    (Except.error e >>= f) = Except.error e := rfl

theorem except_ok_bind {ε α β : Type} (a : α) (f : α → Except ε β) :
    (Except.ok a >>= f : Except ε β) = f a := rfl

/-- A store with no items and no `"Inventory Asset"` account: `syncProduct`
reaches the create path and the missing account makes it fail. -/
def cexStoreC6 : Store :=
  ⟨[], [], [⟨"1", "Sales of Product Income"⟩, ⟨"2", "Cost of Goods Sold"⟩], 0⟩

def cexProductC6 : NormalizedProduct := ⟨"P", none, some "S", "d", none, none, true⟩

/-- Counterexample to claim C6: with `findAccountByName` returning an absent
result for `"Inventory Asset"` on the create path (no item matches by name
or SKU), the engine raises an engine-level failure — `resolveAccountRefs`
dereferences the null lookup result — instead of attaching an incomplete
account-reference set to a created item; no item is created. -/
theorem syncProduct_missing_account_cex :
    findAccountByName cexStoreC6 "Inventory Asset" = none ∧
    findProductByName cexStoreC6 "P" = none ∧
    findProductBySKU cexStoreC6 (some "S") = none ∧
    resolveAccountRefs cexStoreC6 = .error () ∧
    syncProduct "2026-10-12" cexStoreC6 cexProductC6 = .error () :=
  ⟨rfl, rfl, rfl, rfl, rfl⟩

/-- Claim C6 as amended (the code, not the spec, decides): if any of the
three fixed ledger-account lookups returns an absent result, the account
resolution of the create path fails with an engine-level error (the source
reads `r.Name` off the null result), so `createFlow` fails and no item is
created; nothing incomplete is attached. -/
theorem resolveAccountRefs_missing_account_fails (s : Store)
    (h : findAccountByName s "Sales of Product Income" = none ∨
         findAccountByName s "Cost of Goods Sold" = none ∨
         findAccountByName s "Inventory Asset" = none) :
    resolveAccountRefs s = .error () ∧
    ∀ (today : String) (l : Target), createFlow today s l = .error () := by
  have hres : resolveAccountRefs s = .error () := by
    rcases h with h1 | h2 | h3
    · simp [resolveAccountRefs, h1, List.foldlM, accumAccount, except_error_bind]
    · cases hA : findAccountByName s "Sales of Product Income" with
      | none => simp [resolveAccountRefs, hA, List.foldlM, accumAccount, except_error_bind]
      | some a =>
        simp [resolveAccountRefs, hA, h2, List.foldlM, accumAccount,
          except_error_bind, except_ok_bind]
    · cases hA : findAccountByName s "Sales of Product Income" with
      | none => simp [resolveAccountRefs, hA, List.foldlM, accumAccount, except_error_bind]
      | some a =>
        cases hB : findAccountByName s "Cost of Goods Sold" with
        | none =>
          simp [resolveAccountRefs, hA, hB, List.foldlM, accumAccount,
            except_error_bind, except_ok_bind]
        | some b =>
          simp [resolveAccountRefs, hA, hB, h3, List.foldlM, accumAccount,
            except_error_bind, except_ok_bind]
  exact ⟨hres, fun today l => by simp [createFlow, hres]⟩

/-- Witness for the amended C6 theorem at the concrete store missing the
`"Inventory Asset"` account. -/
theorem resolveAccountRefs_missing_account_fails_witness :
    (findAccountByName cexStoreC6 "Sales of Product Income" = none ∨
     findAccountByName cexStoreC6 "Cost of Goods Sold" = none ∨
     findAccountByName cexStoreC6 "Inventory Asset" = none) ∧
    resolveAccountRefs cexStoreC6 = .error () ∧
    createFlow "2026-10-12" cexStoreC6 (mkTarget cexProductC6 none) = .error () :=
  ⟨Or.inr (Or.inr rfl),
   (resolveAccountRefs_missing_account_fails cexStoreC6 (Or.inr (Or.inr rfl))).1,
   (resolveAccountRefs_missing_account_fails cexStoreC6 (Or.inr (Or.inr rfl))).2
     "2026-10-12" (mkTarget cexProductC6 none)⟩

/-! ## Claim C7: what `parseProduct` computes -/

/-- A variant whose `unit_cost` object is present but whose amount is the
empty string. -/
def cexVariantC7 : Variant :=
  ⟨"idX", some "pX", some "T", some "V", some "Food", some "S", some "B", some "1.00",
   [], some ⟨some ⟨some ""⟩⟩, true⟩

/-- Counterexample to claim C7: a present `unit_cost` whose `amount` is
empty does not yield `purchase_cost = null`; the empty amount is fed to the
numeric coercion (`parseFloat("")`, a JS `NaN`, rendered as `0` in the
rational abstraction), so the result is non-null. -/
theorem parseProduct_empty_amount_cex :
    blank (some "") = true ∧
    (parseProduct cexVariantC7).map NormalizedProduct.purchase_cost = some (some 0) ∧
    (parseProduct cexVariantC7).map NormalizedProduct.purchase_cost ≠ some none := by
  refine ⟨rfl, by decide, by decide⟩

/-- Claim C7 as amended: for every raw variant whose `inventory_item` is
present (otherwise `parseProduct` throws), `unit_price` is null exactly when
`price` is absent or empty (never zero) and otherwise `parseFloat` of it;
`purchase_cost` is null exactly when the `unit_cost` object is absent, and
otherwise `parseFloat` of the amount (even an absent or empty amount is
coerced, not nulled); category (from `product_type`), sku and the taxable
flag pass through unchanged; the description comes from the generated name
and barcode via the fixed template. -/
theorem parseProduct_spec (v : Variant) (ii : InventoryItem) (p : NormalizedProduct)
    (hii : v.inventory_item = some ii) (hp : parseProduct v = some p) :
    (p.unit_price = none ↔ blank v.price = true) ∧
    (∀ s, v.price = some s → s ≠ "" → p.unit_price = some (parseFloat s)) ∧
    (p.purchase_cost = none ↔ ii.unit_cost = none) ∧
    (∀ uc, ii.unit_cost = some uc → p.purchase_cost = some (parseFloat (jsStr uc.amount))) ∧
    p.category = v.product_type ∧
    p.sku = v.sku ∧
    p.taxable = v.taxable ∧
    p.name = generateProductName (jsStr v.vendor) (jsStr v.title) v.selected_options ∧
    p.description = generateProductDescription p.name v.barcode := by
  rw [parseProduct, hii] at hp
  injection hp with hp
  subst hp
  refine ⟨?_, ?_, ?_, ?_, rfl, rfl, rfl, rfl, rfl⟩
  · cases hpr : v.price with
    | none => simp [blank]
    | some s =>
      by_cases hs : s = ""
      · subst hs; simp [blank]
      · simp [blank, hs]
  · intro s hs hne
    simp [hs, hne]
  · cases huc : ii.unit_cost with
    | none => simp
    | some uc => simp
  · intro uc huc
    simp [huc]

/-! ## The validator blocks: code bounds and shapes -/

theorem priceErrors_codes (v : Variant) : ∀ e ∈ priceErrors v, e.code = 100 := by
  unfold priceErrors; split <;> simp

theorem costErrors_codes (v : Variant) : ∀ e ∈ costErrors v, e.code = 101 := by
  unfold costErrors
  split
  · simp
  · split
    · simp
    · split <;> simp

theorem dupCheck_fst (m : List (String × String)) (key id : String) (mk : String → VError) :
    ∀ e ∈ (dupCheck m key id mk).1, ∃ w, e = mk w := by
  unfold dupCheck
  split
  · split
    · intro e he
      simp at he
      exact ⟨_, he⟩
    · simp
  · simp

theorem skuBlock_codes (m : List (String × String)) (v : Variant) :
    ∀ e ∈ (skuBlock m v).1, e.code = 107 ∨ e.code = 108 := by
  unfold skuBlock
  split
  · simp
  · intro e he
    rcases dupCheck_fst _ _ _ _ e he with ⟨w, hw⟩
    subst hw
    right; rfl

theorem barcodeBlock_codes (m : List (String × String)) (v : Variant) :
    ∀ e ∈ (barcodeBlock m v).1, e.code = 109 ∨ e.code = 110 := by
  unfold barcodeBlock
  split
  · simp
  · intro e he
    rcases dupCheck_fst _ _ _ _ e he with ⟨w, hw⟩
    subst hw
    right; rfl

/-- The name block's three mutually exclusive shapes: presence errors
(102/103), shape errors (104/105), or at most a duplicate error (106). -/
theorem nameBlock_codes (m : List (String × String)) (v : Variant) :
    (∀ e ∈ (nameBlock m v).1, e.code = 102 ∨ e.code = 103) ∨
    (∀ e ∈ (nameBlock m v).1, e.code = 104 ∨ e.code = 105) ∨
    (∀ e ∈ (nameBlock m v).1, e.code = 106) := by
  unfold nameBlock
  dsimp only
  split
  · left
    intro e he
    rw [List.mem_append] at he
    rcases he with he | he <;> (revert he; split <;> intro he <;> simp_all)
  · split
    · right; left
      intro e he
      rw [List.mem_append] at he
      rcases he with he | he <;> (revert he; split <;> intro he <;> simp_all)
    · right; right
      intro e he
      rcases dupCheck_fst _ _ _ _ e he with ⟨w, hw⟩
      subst hw
      rfl

theorem validateVariant_snd (st : VState) (v : Variant) :
    (validateVariant st v).2
      = (priceErrors v ++ costErrors v) ++ (nameBlock st.names v).1
        ++ (skuBlock st.skus v).1 ++ (barcodeBlock st.barcodes v).1 := rfl

theorem validateProductVariants_results (vs : List Variant) :
    (validateProductVariants vs).results = (runValidate ⟨[], [], []⟩ vs).2 := rfl

/-- Every emitted result is some variant's per-variant evaluation at some
intermediate dictionary state. -/
theorem mem_runValidate (vs : List Variant) :
    ∀ (st : VState) (r : VResult), r ∈ (runValidate st vs).2 →
      ∃ st' v, v ∈ vs ∧ r = ⟨v.id, v.product_id, v.title, (validateVariant st' v).2⟩ := by
  induction vs with
  | nil => intro st r hr; simp [runValidate] at hr
  | cons v rest ih =>
    intro st r hr
    rw [runValidate] at hr
    rcases hv : validateVariant st v with ⟨st1, errs⟩
    rw [hv] at hr
    dsimp only at hr
    rcases hrr : runValidate st1 rest with ⟨stF, rs⟩
    rw [hrr] at hr
    dsimp only at hr
    rcases List.mem_cons.mp hr with h | h
    · refine ⟨st, v, List.mem_cons_self v rest, ?_⟩
      rw [h, hv]
    · obtain ⟨st', w, hw, hre⟩ := by
        have := ih st1 r
        rw [hrr] at this
        exact this h
      exact ⟨st', w, List.mem_cons_of_mem v hw, hre⟩

/-! ## The uniqueness-tracking dictionaries -/

theorem dupCheck_reg_empty (m : List (String × String)) (key id : String) (mk : String → VError)
    (hlk : lookupA m key = some "") :
    dupCheck m key id mk = ([], (key, id) :: m) := by
  unfold dupCheck
  rw [hlk]
  simp

/-- The result carries at least one error with the given code. -/
def hasCode (r : VResult) (c : Nat) : Prop := ∃ e ∈ r.errors, e.code = c

/-- Claim C4 (confirmed): no emitted error list mixes a presence code
(102/103) with a name-shape or name-uniqueness code (104/105/106), and none
mixes a shape code (104/105) with the duplicate code 106. -/
theorem validator_code_exclusion (vs : List Variant) (r : VResult)
    (hr : r ∈ (validateProductVariants vs).results) :
    (¬((hasCode r 102 ∨ hasCode r 103) ∧ (hasCode r 104 ∨ hasCode r 105 ∨ hasCode r 106))) ∧
    (¬((hasCode r 104 ∨ hasCode r 105) ∧ hasCode r 106)) := by
  rw [validateProductVariants_results] at hr
  obtain ⟨st', v, _, hre⟩ := mem_runValidate vs _ r hr
  have herr : r.errors = (validateVariant st' v).2 := by rw [hre]
  have hname : ∀ e ∈ r.errors,
      (e.code = 102 ∨ e.code = 103 ∨ e.code = 104 ∨ e.code = 105 ∨ e.code = 106) →
      e ∈ (nameBlock st'.names v).1 := by
    intro e he hc
    rw [herr, validateVariant_snd] at he
    simp only [List.mem_append] at he
    rcases he with (((hp | hcst) | hn) | hs) | hb
    · have := priceErrors_codes v e hp; omega
    · have := costErrors_codes v e hcst; omega
    · exact hn
    · have := skuBlock_codes st'.skus v e hs; omega
    · have := barcodeBlock_codes st'.barcodes v e hb; omega
  constructor
  · rintro ⟨h23, h456⟩
    obtain ⟨e1, he1, hc1⟩ : ∃ e ∈ r.errors, e.code = 102 ∨ e.code = 103 := by
      rcases h23 with ⟨e, he, hc⟩ | ⟨e, he, hc⟩
      · exact ⟨e, he, Or.inl hc⟩
      · exact ⟨e, he, Or.inr hc⟩
    obtain ⟨e2, he2, hc2⟩ : ∃ e ∈ r.errors, e.code = 104 ∨ e.code = 105 ∨ e.code = 106 := by
      rcases h456 with ⟨e, he, hc⟩ | ⟨e, he, hc⟩ | ⟨e, he, hc⟩
      · exact ⟨e, he, Or.inl hc⟩
      · exact ⟨e, he, Or.inr (Or.inl hc)⟩
      · exact ⟨e, he, Or.inr (Or.inr hc)⟩
    have hn1 := hname e1 he1 (by omega)
    have hn2 := hname e2 he2 (by omega)
    rcases nameBlock_codes st'.names v with H | H | H
    · have := H e2 hn2; omega
    · have := H e1 hn1; omega
    · have := H e1 hn1; omega
  · rintro ⟨h45, h6⟩
    obtain ⟨e1, he1, hc1⟩ : ∃ e ∈ r.errors, e.code = 104 ∨ e.code = 105 := by
      rcases h45 with ⟨e, he, hc⟩ | ⟨e, he, hc⟩
      · exact ⟨e, he, Or.inl hc⟩
      · exact ⟨e, he, Or.inr hc⟩
    obtain ⟨e2, he2, hc2⟩ := h6
    have hn1 := hname e1 he1 (by omega)
    have hn2 := hname e2 he2 (by omega)
    rcases nameBlock_codes st'.names v with H | H | H
    · have := H e1 hn1; omega
    · have := H e2 hn2; omega
    · have := H e1 hn1; omega

/-- A variant with missing vendor, price, cost, sku and barcode, and the
result the validator emits for it. -/
def variantW4 : Variant := ⟨"w4", none, some "T", none, none, none, none, none, [], none, true⟩

def resultW4 : VResult :=
  ⟨"w4", none, some "T",
   [⟨100, "invalid price: price can't be empty"⟩,
    ⟨101, "invalid cost: cost can't be empty"⟩,
    ⟨102, "invalid vendor: vendor can't be empty"⟩,
    ⟨107, "invalid sku: sku can't be empty"⟩,
    ⟨109, "invalid barcode: barcode can't be empty"⟩]⟩

/-- Witness for C4 at a concrete batch: the missing-vendor variant gets code
102 and no name-shape or uniqueness code. -/
theorem validator_code_exclusion_witness :
    resultW4 ∈ (validateProductVariants [variantW4]).results ∧
    ¬((hasCode resultW4 102 ∨ hasCode resultW4 103) ∧
      (hasCode resultW4 104 ∨ hasCode resultW4 105 ∨ hasCode resultW4 106)) ∧
    ¬((hasCode resultW4 104 ∨ hasCode resultW4 105) ∧ hasCode resultW4 106) :=
  ⟨by decide,
   (validator_code_exclusion [variantW4] resultW4 (by decide)).1,
   (validator_code_exclusion [variantW4] resultW4 (by decide)).2⟩

/-! ## Claim C5: first-occurrence-wins uniqueness tracking -/

/-- Witness for the amended C7 theorem at a fully populated variant. -/
theorem parseProduct_spec_witness :
    cexVariantC7.inventory_item = some ⟨some ⟨some ""⟩⟩ ∧
    parseProduct cexVariantC7
      = some ⟨"V T", some "Food", some "S", "V T, barcode: B", some 1, some 0, true⟩ ∧
    ((some 1 : Option ℚ) = none ↔ blank cexVariantC7.price = true) ∧
    (⟨"V T", some "Food", some "S", "V T, barcode: B", some 1, some 0, true⟩
        : NormalizedProduct).category = cexVariantC7.product_type :=
  ⟨rfl, by decide,
   ((parseProduct_spec cexVariantC7 ⟨some ⟨some ""⟩⟩
      ⟨"V T", some "Food", some "S", "V T, barcode: B", some 1, some 0, true⟩
      rfl (by decide)).1),
   ((parseProduct_spec cexVariantC7 ⟨some ⟨some ""⟩⟩
      ⟨"V T", some "Food", some "S", "V T, barcode: B", some 1, some 0, true⟩
      rfl (by decide)).2.2.2.2.1)⟩

end QBSync
